import Mathlib

set_option maxRecDepth 8192

/-!
Verification development for the mcp-report-generator repository.

The repository consists of three TypeScript modules:
- src/mcp/csv-generator/src/mcp-server.ts : the create_fromjson_tofs tool,
  which serializes an array of JSON row objects to one CSV file using the
  csv-stringify library (options: header true, quoted true, quoted_empty
  true, escape a double quote, cast date to toISOString), plus a second
  embedded server exposing postgres_save_query_result
  (saveQueryResultHandlerAsync) which runs a query and writes its rows to
  one CSV file with the same stringifier configuration.
- src/mcp/postgres-query/src/mcp-server.ts : handlers ping, list_schemas,
  list_tables, describe_table, describe_tables and query, each calling
  PostgreSQL.queryAsync and shaping its result.
- src/mcp/postgres/src/postgresql.ts : PostgreSQL.queryAsync, which wraps
  pool.query in try/catch and returns a structured QueryResult.

This file gives a shallow embedding of those functions.  Effects are made
explicit: the outcome of the external database pool is a parameter
(QueryOutcome), and file writes are returned as data (FileWrite records)
instead of being performed.  Behavior of the csv-stringify dependency is
embedded from its stringifier: a field value is cast (dates via
toISOString, strings unchanged, null and undefined untouched); a truthy
(non-empty) string is quoted because the quoted option is set, with any
contained double quote doubled; a falsy value (empty string, null,
undefined) is emitted as a quoted empty field because the quoted_empty
option is set.

Components that the specification assigns to the coordinator (the calling
agent driven by the instruction file under .github/agents) have no code
under src/; where a claim is decided by them, a definition marked
Modelled from the spec is used.
-/

/-- Values that can appear in a row object passed to the tools: a JSON
string, a JavaScript Date (represented by its toISOString rendering), or
null.  An absent key is represented by a failed lookup, mirroring a
JavaScript object access returning undefined. -/
inductive Value where
  | str : String → Value
  | date : String → Value
  | null : Value
deriving DecidableEq, Repr

/-- One row object: an ordered association of column name to value, as the
JSON object literals the tools receive. -/
def Row : Type := List (String × Value)

instance : DecidableEq Row := by
  unfold Row
  infer_instance

instance : Repr Row := inferInstanceAs (Repr (List (String × Value)))

/-- Property access row[k] on a JavaScript object: the value at the first
matching key, or none for undefined when the key is absent. -/
def lookupRow (row : Row) (k : String) : Option Value :=
  (row.find? (fun p => p.1 == k)).map (fun p => p.2)

/-- Embedding of the JavaScript value.replace(new RegExp(quote), escape + quote)
step of the csv-stringify stringifier with quote and escape both a double
quote: every double-quote character is doubled.  The source applies the
replace only when the value contains a quote; on quote-free values the
replace is the identity, so applying it unconditionally is extensionally
the same. -/
def escapeChars : List Char → List Char
  | [] => []
  | c :: cs => if c = '"' then '"' :: '"' :: escapeChars cs else c :: escapeChars cs

/-- String-level wrapper of escapeChars. -/
def escapeQuotes (s : String) : String := String.mk (escapeChars s.data)

/-- Embedding of the cast step of the csv-stringify stringifier under the
configuration of the repository: a Date is cast by the configured
cast.date, namely toISOString; a string passes through; null stays null
(none). -/
def castValue : Value → Option String
  | .str s => some s
  | .date iso => some iso
  | .null => none

/-- Embedding of one field serialization of the csv-stringify stringifier
under the configuration of createFromJsonToFSHandlerAsync and
saveQueryResultHandlerAsync (quoted true, quoted_empty true, escape and
quote both a double quote).  A truthy (non-empty) cast value is always
quoted since the quoted option is set, with contained quotes doubled; a
falsy value, which is an empty string as well as null or undefined, takes
the branch guarded by quoted_empty being true and is emitted as a quoted
empty field. -/
def serializeField (field : Option Value) : String :=
  match field.bind castValue with
  | some v =>
      if v.data ≠ [] then
        "\"" ++ escapeQuotes v ++ "\""
      else
        "\"\""
  | none => "\"\""

/-- Serialization of one cell of a record: the stringifier reads the value
of the record at the column key (undefined when absent) and serializes the
field. -/
def serializeCell (row : Row) (k : String) : String :=
  serializeField (lookupRow row k)

/-- Serialization of one record as a CSV line: the cells for the column
list in column order, joined by the comma delimiter. -/
def serializeRecord (columns : List String) (row : Row) : String :=
  String.intercalate "," (columns.map (serializeCell row))

/-- Serialization of the header line: with the header option set, the
column names themselves are serialized as fields of the first line. -/
def headerLine (columns : List String) : String :=
  String.intercalate "," (columns.map (fun c => serializeField (some (Value.str c))))

/-- Complete output of the configured csv-stringify pipeline on a list of
records: with the header option set and no explicit column list, the
columns are the keys of the first record in their object order; the output
is the header line followed by one line per record in input order.  With
no records at all no column list can be derived and nothing is emitted. -/
def csvLines (contents : List Row) : List String :=
  match contents with
  | [] => []
  | first :: _ =>
      let columns := first.map (fun p => p.1)
      headerLine columns :: contents.map (serializeRecord columns)

/-- Embedding of path.join(path, filename) as used by the handlers: the
directory and the file name joined by the path separator. -/
def joinPath (dir file : String) : String := dir ++ "/" ++ file

/-- One file write performed by a handler: the target path and the lines
written to it. -/
structure FileWrite where
  path : String
  lines : List String
deriving DecidableEq, Repr

/-- Result of createFromJsonToFSHandlerAsync, with the performed file
writes made explicit. -/
structure CreateResult where
  isError : Bool
  fullPath : String
  rowCount : Nat
  filesWritten : List FileWrite
deriving DecidableEq, Repr

/-- Embedding of createFromJsonToFSHandlerAsync of the csv-generator
server.  The handler unconditionally computes fullPath as
join(path, filename), opens a write stream there (so the file is created),
pipes every row of contents through the configured stringifier, and on the
finish event resolves with fullPath and rowCount equal to contents.length;
on a stream error event it resolves with an error flag.  The success of
the underlying stream is the writeOk parameter.  No row-count threshold,
no partitioning into part files, no output-root check and no rejection of
any path appears in the handler. -/
def createFromJsonToFSHandler (filename path : String) (contents : List Row)
    (writeOk : Bool) : CreateResult :=
  let fullPath := joinPath path filename
  if writeOk then
    { isError := false
      fullPath := fullPath
      rowCount := contents.length
      filesWritten := [⟨fullPath, csvLines contents⟩] }
  else
    { isError := true
      fullPath := fullPath
      rowCount := 0
      filesWritten := [⟨fullPath, []⟩] }

/-- Outcome of the external pool.query call awaited by
PostgreSQL.queryAsync: either it fulfills with a result whose rows field
may be null (modelled by Option), or it rejects with an error value,
represented by its message. -/
inductive QueryOutcome (α : Type) where
  | ok : Option (List α) → QueryOutcome α
  | err : String → QueryOutcome α

/-- Result type of PostgreSQL.queryAsync from postgresql.ts: an optional
error flag (false models the absent field), a message, and the data
rows. -/
structure QueryResult (α : Type) where
  error : Bool
  message : String
  data : List α

/-- Embedding of PostgreSQL.queryAsync.  The body awaits pool.query inside
try/catch: on fulfillment it returns message success and data res.rows
with a null-coalesce to the empty list; on any thrown error it returns the
error flag set, the caught error value as the message, and an empty data
list.  Both branches return normally, so the function never throws past
its boundary; in the embedding this is totality. -/
def queryAsync {α : Type} (outcome : QueryOutcome α) : QueryResult α :=
  match outcome with
  | .ok rows => { error := false, message := "success", data := rows.getD [] }
  | .err m => { error := true, message := m, data := [] }

/-- Result of the query tool handler of the postgres-query server. -/
structure QueryToolResult where
  isError : Bool
  rowCount : Nat
  rows : List Row
deriving DecidableEq, Repr

/-- Embedding of queryHandlerAsync of the postgres-query server: on a
query error it returns an error result; on zero data rows it returns the
initial container with rowCount 0 and empty rows, not an error; otherwise
it returns the data rows and their count. -/
def queryHandler (outcome : QueryOutcome Row) : QueryToolResult :=
  let result := queryAsync outcome
  if result.error then
    { isError := true, rowCount := 0, rows := [] }
  else if result.data.length == 0 then
    { isError := false, rowCount := 0, rows := [] }
  else
    { isError := false, rowCount := result.data.length, rows := result.data }

/-- Result of saveQueryResultHandlerAsync, with the performed file writes
made explicit. -/
structure SaveResult where
  isError : Bool
  rowCount : Nat
  fullPath : String
  filesWritten : List FileWrite
deriving DecidableEq, Repr

/-- Embedding of saveQueryResultHandlerAsync of the postgres server
embedded in the csv-generator module.  On a query error it returns an
error result before touching the filesystem; on zero data rows it returns
success with rowCount 0 and an empty fullPath, again creating no file;
otherwise it opens a stream at join(path, filename) and writes all rows
through the same stringifier configuration as createFromJsonToFSHandler,
resolving with the row count on finish or with an error flag on a stream
error.  As above writeOk stands for the success of the stream. -/
def saveQueryResultHandler (outcome : QueryOutcome Row) (filename path : String)
    (writeOk : Bool) : SaveResult :=
  let result := queryAsync outcome
  if result.error then
    { isError := true, rowCount := 0, fullPath := "", filesWritten := [] }
  else if result.data.length == 0 then
    { isError := false, rowCount := 0, fullPath := "", filesWritten := [] }
  else
    let fullPath := joinPath path filename
    if writeOk then
      { isError := false
        rowCount := result.data.length
        fullPath := fullPath
        filesWritten := [⟨fullPath, csvLines result.data⟩] }
    else
      { isError := true, rowCount := 0, fullPath := ""
        filesWritten := [⟨fullPath, []⟩] }

/-- One row of the information_schema.columns catalog query issued by
describeTableHandlerAsync and describeTablesHandlerAsync, after the CASE
expressions turned is_identity and is_nullable into booleans. -/
structure CatalogRow where
  table_schema : String
  table_name : String
  column_name : String
  data_type : String
  identity : Bool
  required : Bool
  char_max_length : Option Int
  num_precision : Option Int
  num_precision_radix : Option Int
deriving DecidableEq, Repr

/-- One column entry of the structured content produced by the describe
handlers. -/
structure ColumnInfo where
  name : String
  type : String
  required : Bool
  identity : Bool
  char_max_length : Option Int
  num_precision : Option Int
  num_precision_radix : Option Int
deriving DecidableEq, Repr

/-- One table entry of the structured content produced by
describeTablesHandlerAsync. -/
structure TableInfo where
  schema : String
  name : String
  columns : List ColumnInfo
deriving DecidableEq, Repr

/-- Mapping of one catalog row to the column object pushed by the describe
handlers. -/
def colOfRow (r : CatalogRow) : ColumnInfo :=
  { name := r.column_name
    type := r.data_type
    required := r.required
    identity := r.identity
    char_max_length := r.char_max_length
    num_precision := r.num_precision
    num_precision_radix := r.num_precision_radix }

/-- Grouping key of a catalog row: the pair of schema and table name. -/
def keyR (r : CatalogRow) : String × String := (r.table_schema, r.table_name)

/-- Grouping key of a produced table entry. -/
def keyT (t : TableInfo) : String × String := (t.schema, t.name)

/-- Embedding of the findIndex predicate of describeTablesHandlerAsync:
row.schema == value.table_schema && row.name == value.table_name. -/
def rowMatches (t : TableInfo) (r : CatalogRow) : Bool :=
  t.schema == r.table_schema && t.name == r.table_name

/-- Embedding of one iteration of the forEach loop of
describeTablesHandlerAsync.  The source finds the index of the first table
entry whose key equals the key of the catalog row via findIndex; if none
exists it pushes a fresh entry with empty columns at the end and uses its
index; it then pushes the column of the row at that index.  Updating the
first matching entry, or appending a fresh entry holding exactly the new
column, renders the same computation structurally. -/
def insertRow (tables : List TableInfo) (r : CatalogRow) : List TableInfo :=
  match tables with
  | [] => [⟨r.table_schema, r.table_name, [colOfRow r]⟩]
  | t :: ts =>
      if rowMatches t r then
        { t with columns := t.columns ++ [colOfRow r] } :: ts
      else
        t :: insertRow ts r

/-- Embedding of the full forEach loop of describeTablesHandlerAsync: the
catalog rows are folded into the initially empty tables array. -/
def groupTables (rows : List CatalogRow) : List TableInfo :=
  rows.foldl insertRow []

/-- Result of the describe_tables tool handler. -/
structure DescribeTablesResult where
  isError : Bool
  tables : List TableInfo
deriving DecidableEq, Repr

/-- Embedding of describeTablesHandlerAsync of the postgres-query server:
on a query error an error result, otherwise the grouped tables. -/
def describeTablesHandler (outcome : QueryOutcome CatalogRow) : DescribeTablesResult :=
  let result := queryAsync outcome
  if result.error then
    { isError := true, tables := [] }
  else
    { isError := false, tables := groupTables result.data }

/-- Result of the describe_table tool handler: the structured content is
initialized with the requested schema and table and the columns are the
mapped data rows, whatever their number. -/
structure DescribeTableResult where
  isError : Bool
  schema : String
  table : String
  columns : List ColumnInfo
deriving DecidableEq, Repr

/-- Embedding of describeTableHandlerAsync of the postgres-query server:
on a query error an error result; otherwise the result carries the
requested schema and table names and one column entry per returned catalog
row, in row order.  Nothing guards against an empty row list: a table
absent from the catalog yields a success result with an empty columns
list. -/
def describeTableHandler (table schema : String)
    (outcome : QueryOutcome CatalogRow) : DescribeTableResult :=
  let result := queryAsync outcome
  if result.error then
    { isError := true, schema := schema, table := table, columns := [] }
  else
    { isError := false
      schema := schema
      table := table
      columns := result.data.map colOfRow }

/-- First-seen deduplication of a key list, extending a list of already
seen keys: a key already seen is dropped, a new key is appended and
becomes seen.  This is the specification-side description of the order in
which describeTablesHandlerAsync creates table entries. -/
def firstSeenFrom (seen : List (String × String)) :
    List (String × String) → List (String × String)
  | [] => []
  | k :: ks =>
      if k ∈ seen then firstSeenFrom seen ks
      else k :: firstSeenFrom (seen ++ [k]) ks

/-- Specification-side construction of one table entry for a key: the
columns are exactly the catalog rows carrying that key, in catalog
order. -/
def mkTable (k : String × String) (rows : List CatalogRow) : TableInfo :=
  { schema := k.1
    name := k.2
    columns := (rows.filter (fun r => keyR r = k)).map colOfRow }

/-- Specification-side description of the grouping contract of
describeTables: one entry per distinct key in first-seen order, columns
grouped in catalog order. -/
def groupSpec (rows : List CatalogRow) : List TableInfo :=
  (firstSeenFrom [] (rows.map keyR)).map (fun k => mkTable k rows)

/-- Modelled from the spec: one CSV part file as consumed by the
PartMerger component (spec 4.4).  No merge code exists under src/; the
merge step is prescribed by the agent instruction file, so the part is
modelled from the words of the spec: a header line and the data lines. -/
structure CsvPart where
  header : String
  dataLines : List String
deriving DecidableEq, Repr

/-- Modelled from the spec: the precondition of PartMerger, every part
sharing an identical header line. -/
def headersMatch : List CsvPart → Bool
  | [] => true
  | p :: ps => ps.all (fun q => q.header == p.header)

/-- Outcome of the modelled merge: either the lines of the produced
canonical file, or the distinct header-mismatch error with no output
written. -/
inductive MergeResult where
  | ok : List String → MergeResult
  | schemaMismatch : MergeResult
deriving DecidableEq, Repr

/-- Modelled from the spec: PartMerger (spec 4.4).  Given the ordered
parts, when every part shares the header of part 1 the canonical file is
that header exactly once followed by the data lines of every part in part
order; on any header mismatch the distinct SchemaMismatchError is raised
and no output file is written. -/
def mergeParts : List CsvPart → MergeResult
  | [] => .ok []
  | p :: ps =>
      if ps.all (fun q => q.header == p.header) then
        .ok (p.header :: ((p :: ps).map CsvPart.dataLines).flatten)
      else
        .schemaMismatch

/-- Outcome of one pipeline step as seen by the modelled coordinator. -/
inductive StepOutcome where
  | ok : StepOutcome
  | fail : String → StepOutcome
deriving DecidableEq, Repr

/-- Trace of the modelled coordinator around one phase: how many times the
step ran and the surfaced outcome. -/
structure PhaseTrace where
  executions : Nat
  outcome : StepOutcome
deriving DecidableEq, Repr

/-- Modelled from the spec: the retry policy of the ReportCoordinator
around the query phase (spec 4.5 and 7).  No coordinator code exists under
src/; the coordinator is the calling agent directed by the instruction
file, which prescribes one automatic correction attempt on an error.  The
first execution outcome and the outcome of a corrective retry are
parameters, as is the client-diagnosability predicate on the error text.
On a first failure that is client-diagnosable the coordinator runs exactly
one retry and surfaces the outcome of the retry; otherwise it surfaces the
first outcome directly. -/
def coordinateQuery (first retry : StepOutcome) (diagnosable : String → Bool) :
    PhaseTrace :=
  match first with
  | .ok => { executions := 1, outcome := .ok }
  | .fail m =>
      if diagnosable m then
        { executions := 2, outcome := retry }
      else
        { executions := 1, outcome := .fail m }

/-- Modelled from the spec: the coordinator around an I/O or merge phase
(spec 4.5): such a failure is never retried, the step runs once and its
outcome is surfaced unchanged. -/
def coordinateIOOrMerge (step : StepOutcome) : PhaseTrace :=
  { executions := 1, outcome := step }

/-- Modelled from the spec: the designated output root to which the
coordinator constrains the output directory (spec 6); in the agent
instruction file this is the out directory. -/
def outputRoot : String := "out"

/-- Modelled from the spec: containment of an output directory in the
designated root.  A directory lies under the root exactly when it is the
root itself or a descendant of it, that is when the root followed by the
path separator is a prefix of the directory; a mere string sibling such as
outliers next to the root out is NOT under the root. -/
def isUnderRoot (root dir : String) : Bool :=
  dir == root || ((root ++ "/").data.isPrefixOf dir.data)

/-- Modelled from the spec: the output-directory gate of the coordinator
(spec 6, generateReport).  The coordinator rejects a request whose output
directory does not lie under the designated root before invoking the
writing tool, so no file is written; otherwise it delegates to
createFromJsonToFSHandler.  The tool itself performs no such check. -/
def coordinateGenerateReport (filename path : String) (contents : List Row)
    (writeOk : Bool) : CreateResult :=
  if isUnderRoot outputRoot path then
    createFromJsonToFSHandler filename path contents writeOk
  else
    { isError := true, fullPath := "", rowCount := 0, filesWritten := [] }

/-- Sample row used by concrete witnesses. -/
def sampleRow : Row := [("a", Value.str "x")]

/-- C5: queryAsync never throws past its boundary (the embedding is total
over both pool outcomes); an execution failure is returned with the error
flag set, the caught error value as the message, and an empty data list;
a successful execution returns the rows (null-coalesced) with the error
flag absent. -/
theorem queryAsync_neverThrows (m : String) (rows : Option (List Row)) :
    queryAsync (QueryOutcome.err m) =
      { error := true, message := m, data := ([] : List Row) } ∧
    queryAsync (QueryOutcome.ok rows) =
      { error := false, message := "success", data := rows.getD [] } :=
  ⟨rfl, rfl⟩

/-- C4: a query execution returning zero rows (whether the driver reports
an empty rows array or a null rows field) is a success: the query handler
returns rowCount 0 with empty rows and no error flag, and
saveQueryResultHandler returns success with rowCount 0 and writes no
file. -/
theorem zeroRows_isSuccess (filename path : String) (writeOk : Bool) :
    queryHandler (QueryOutcome.ok (some [])) =
      { isError := false, rowCount := 0, rows := [] } ∧
    queryHandler (QueryOutcome.ok none) =
      { isError := false, rowCount := 0, rows := [] } ∧
    saveQueryResultHandler (QueryOutcome.ok (some [])) filename path writeOk =
      { isError := false, rowCount := 0, fullPath := "", filesWritten := [] } ∧
    saveQueryResultHandler (QueryOutcome.ok none) filename path writeOk =
      { isError := false, rowCount := 0, fullPath := "", filesWritten := [] } :=
  ⟨rfl, rfl, rfl, rfl⟩

/-- C10: on an empty contents array, createFromJsonToFSHandler resolves as
a success reporting rowCount 0 and still creates a file at the joined
fullPath (with empty content, since no header can be derived from zero
records), whereas saveQueryResultHandler creates no file at all when the
query returns zero rows. -/
theorem createFromJsonToFS_emptyContents (filename path : String) :
    createFromJsonToFSHandler filename path [] true =
      { isError := false
        fullPath := joinPath path filename
        rowCount := 0
        filesWritten := [⟨joinPath path filename, []⟩] } ∧
    (saveQueryResultHandler (QueryOutcome.ok (some [])) filename path true).filesWritten
      = [] :=
  ⟨rfl, rfl⟩

/-- C3 counterexample: under the configured stringifier a null value is
emitted exactly like the explicit empty string, namely as a quoted empty
field (quoted_empty also applies to null and undefined), so a null is not
an unquoted empty field and the null-versus-empty-string distinction does
not survive. -/
theorem serializeField_null_quoted_cex :
    serializeField (some Value.null) = serializeField (some (Value.str "")) ∧
    serializeField (some Value.null) = "\"\"" ∧
    serializeField none = "\"\"" := by
  refine ⟨?_, ?_, ?_⟩ <;> decide

/-- C1 counterexample: 1001 rows passed to createFromJsonToFSHandler are
not partitioned into ceil(1001 / 1000) = 2 part files: the handler writes
exactly one file, located at the joined path and not named with a part
suffix. -/
theorem createFromJsonToFS_noPartition_cex :
    ((List.replicate 1001 sampleRow).length > 1000) ∧
    (createFromJsonToFSHandler "report.csv" "out" (List.replicate 1001 sampleRow)
        true).filesWritten.length = 1 ∧
    (1001 + 999) / 1000 = 2 ∧
    (createFromJsonToFSHandler "report.csv" "out" (List.replicate 1001 sampleRow)
        true).filesWritten.length ≠ (1001 + 999) / 1000 ∧
    (createFromJsonToFSHandler "report.csv" "out" (List.replicate 1001 sampleRow)
        true).fullPath = "out/report.csv" := by
  refine ⟨by simp, by simp [createFromJsonToFSHandler], by norm_num,
    by simp [createFromJsonToFSHandler], rfl⟩

/-- C1 amended: for a contents array with more than 1000 rows the handler
does not partition at all; it writes exactly one file at the joined path
holding one header line (derived from the first row) followed by every row
in original order with the column order of the first row, reports the full
row count and no error. -/
theorem createFromJsonToFS_singleFile_over1000 (filename path : String) (r : Row)
    (rs : List Row) (h : (r :: rs).length > 1000) :
    (createFromJsonToFSHandler filename path (r :: rs) true).filesWritten =
      [⟨joinPath path filename,
        headerLine (r.map (fun p => p.1)) ::
          (r :: rs).map (serializeRecord (r.map (fun p => p.1)))⟩] ∧
    (createFromJsonToFSHandler filename path (r :: rs) true).rowCount
      = (r :: rs).length ∧
    (createFromJsonToFSHandler filename path (r :: rs) true).isError = false := by
  refine ⟨rfl, rfl, rfl⟩

/-- Witness for the amended C1 theorem at a concrete 1001-row input. -/
theorem createFromJsonToFS_singleFile_over1000_witness :
    ((sampleRow :: List.replicate 1000 sampleRow).length > 1000) ∧
    ((createFromJsonToFSHandler "report.csv" "out"
          (sampleRow :: List.replicate 1000 sampleRow) true).filesWritten =
      [⟨joinPath "out" "report.csv",
        headerLine (sampleRow.map (fun p => p.1)) ::
          (sampleRow :: List.replicate 1000 sampleRow).map
            (serializeRecord (sampleRow.map (fun p => p.1)))⟩] ∧
    (createFromJsonToFSHandler "report.csv" "out"
          (sampleRow :: List.replicate 1000 sampleRow) true).rowCount
      = (sampleRow :: List.replicate 1000 sampleRow).length ∧
    (createFromJsonToFSHandler "report.csv" "out"
          (sampleRow :: List.replicate 1000 sampleRow) true).isError = false) :=
  ⟨by simp, createFromJsonToFS_singleFile_over1000 "report.csv" "out" sampleRow
      (List.replicate 1000 sampleRow) (by simp)⟩

/-- Reader-side inverse of the quote doubling inside a quoted field of an
RFC 4180 CSV: a doubled quote reads back as one quote character, a lone
quote inside the field body is invalid. -/
def unescapeChars : List Char → Option (List Char)
  | [] => some []
  | c :: cs =>
      if c = '"' then
        match cs with
        | [] => none
        | c2 :: cs2 =>
            if c2 = '"' then (unescapeChars cs2).map (fun l => '"' :: l)
            else none
      else
        (unescapeChars cs).map (fun l => c :: l)

/-- Reader-side parse of one quoted CSV field: the field must begin and
end with a quote character and its interior must unescape. -/
def unquoteField (s : String) : Option String :=
  match s.data with
  | [] => none
  | c :: rest =>
      if c = '"' then
        if rest.getLast? = some '"' then
          (unescapeChars rest.dropLast).map String.mk
        else none
      else none

theorem unescapeChars_escapeChars (l : List Char) :
    unescapeChars (escapeChars l) = some l := by
  induction l with
  | nil => rfl
  | cons c cs ih =>
      by_cases hc : c = '"'
      · subst hc
        simp [escapeChars, unescapeChars, ih]
      · rw [escapeChars, if_neg hc, unescapeChars.eq_def]
        dsimp only
        rw [if_neg hc, ih]
        rfl

theorem serializeField_str_data (s : String) :
    (serializeField (some (Value.str s))).data = '"' :: escapeChars s.data ++ ['"'] := by
  by_cases hs : s.data = []
  · simp [serializeField, castValue, hs, escapeChars]
  · simp [serializeField, castValue, hs, escapeQuotes, String.data_append]

theorem unquoteField_serializeField (s : String) :
    unquoteField (serializeField (some (Value.str s))) = some s := by
  rw [unquoteField.eq_def, serializeField_str_data]
  simp [unescapeChars_escapeChars]

/-- C3 amended: every present (string or date) field is wrapped in double
quotes with embedded quotes escaped by doubling (shown by the shape of the
serialized data and by the round trip through an RFC 4180 quoted-field
reader), dates are serialized via their ISO-8601 rendering, an explicit
empty string is a quoted empty field, and a null or absent value is ALSO
emitted as a quoted empty field (the quoted_empty option applies to null
and undefined as well), identical to the empty string, so the
null-versus-empty-string distinction does not survive a round trip. -/
theorem serializeField_rfc4180 (s iso : String) :
    (serializeField (some (Value.str s))).data
      = '"' :: escapeChars s.data ++ ['"'] ∧
    unquoteField (serializeField (some (Value.str s))) = some s ∧
    serializeField (some (Value.date iso)) = serializeField (some (Value.str iso)) ∧
    serializeField (some (Value.str "")) = "\"\"" ∧
    serializeField (some Value.null) = serializeField (some (Value.str "")) ∧
    serializeField none = serializeField (some (Value.str "")) := by
  refine ⟨serializeField_str_data s, unquoteField_serializeField s, rfl, by decide,
    by decide, by decide⟩

/-- C2: when every part shares the header line of part 1, the modelled
merge produces the header exactly once followed by the data lines of every
part in part order, with total line count one plus the sum of the part
data-row counts; when some header differs, the merge fails with the
distinct schema-mismatch error and produces no output file. -/
theorem mergeParts_headerPolicy (p : CsvPart) (ps : List CsvPart) :
    (headersMatch (p :: ps) = true →
      mergeParts (p :: ps)
        = .ok (p.header :: ((p :: ps).map CsvPart.dataLines).flatten) ∧
      (p.header :: ((p :: ps).map CsvPart.dataLines).flatten).length
        = 1 + ((p :: ps).map (fun q => q.dataLines.length)).sum) ∧
    (headersMatch (p :: ps) = false → mergeParts (p :: ps) = .schemaMismatch) := by
  constructor
  · intro h
    rw [headersMatch] at h
    constructor
    · rw [mergeParts, if_pos h]
    · simp [Function.comp_def]
      omega
  · intro h
    rw [headersMatch] at h
    rw [mergeParts, if_neg (by simp [h])]

/-- Witness for the C2 theorem: a matching pair of parts merges to the
single header plus all data lines, and a mismatched pair fails. -/
theorem mergeParts_headerPolicy_witness :
    (mergeParts [⟨"h", ["a", "b"]⟩, ⟨"h", ["c"]⟩]
      = .ok ["h", "a", "b", "c"] ∧ (["h", "a", "b", "c"] : List String).length = 1 + 3) ∧
    mergeParts [⟨"h", ["a"]⟩, ⟨"g", ["b"]⟩] = .schemaMismatch := by
  constructor
  · have h := (mergeParts_headerPolicy ⟨"h", ["a", "b"]⟩ [⟨"h", ["c"]⟩]).1 (by decide)
    constructor
    · exact h.1
    · decide
  · exact (mergeParts_headerPolicy ⟨"h", ["a"]⟩ [⟨"g", ["b"]⟩]).2 (by decide)

/-- C6: the modelled coordinator runs the query step at most twice; on a
first failure whose message is client-diagnosable it runs exactly one
corrective retry and surfaces the outcome of the retry (so a failed retry
surfaces the message of the retry); on a non-diagnosable failure or a
success it runs the step exactly once; an I/O or merge step is never
retried. -/
theorem coordinateQuery_retryPolicy (first retry : StepOutcome)
    (diagnosable : String → Bool) (m : String) (step : StepOutcome) :
    (coordinateQuery first retry diagnosable).executions ≤ 2 ∧
    (diagnosable m = true →
      coordinateQuery (.fail m) retry diagnosable
        = { executions := 2, outcome := retry }) ∧
    (diagnosable m = false →
      coordinateQuery (.fail m) retry diagnosable
        = { executions := 1, outcome := .fail m }) ∧
    coordinateQuery .ok retry diagnosable = { executions := 1, outcome := .ok } ∧
    coordinateIOOrMerge step = { executions := 1, outcome := step } := by
  refine ⟨?_, ?_, ?_, rfl, rfl⟩
  · cases first with
    | ok => exact Nat.le_succ 1
    | fail m2 =>
        rw [coordinateQuery]
        by_cases hd : diagnosable m2 = true
        · rw [if_pos hd]
        · rw [if_neg hd]
          exact Nat.le_succ 1
  · intro hd
    rw [coordinateQuery, if_pos hd]
  · intro hd
    rw [coordinateQuery, if_neg (by simp [hd])]

/-- Witness for the C6 theorem: a permission failure classified as
diagnosable is retried once and, the retry failing too, the surfaced
outcome carries the message of the retry; with a classifier rejecting the
message, no retry happens. -/
theorem coordinateQuery_retryPolicy_witness :
    (coordinateQuery (.fail "permission denied") (.fail "still denied")
        (fun _ => true)).executions ≤ 2 ∧
    coordinateQuery (.fail "permission denied") (.fail "still denied") (fun _ => true)
      = { executions := 2, outcome := .fail "still denied" } ∧
    coordinateQuery (.fail "permission denied") (.fail "still denied") (fun _ => false)
      = { executions := 1, outcome := .fail "permission denied" } := by
  refine ⟨?_, ?_, ?_⟩
  · exact (coordinateQuery_retryPolicy (.fail "permission denied") (.fail "still denied")
      (fun _ => true) "permission denied" .ok).1
  · exact ((coordinateQuery_retryPolicy (.fail "permission denied") (.fail "still denied")
      (fun _ => true) "permission denied" .ok).2).1 rfl
  · exact (((coordinateQuery_retryPolicy (.fail "permission denied") (.fail "still denied")
      (fun _ => false) "permission denied" .ok).2).2).1 rfl

theorem isPrefixOf_self_append (l m : List Char) : l.isPrefixOf (l ++ m) = true := by
  induction l with
  | nil => cases m <;> rfl
  | cons a as ih => simp [List.isPrefixOf, ih]

/-- C7: the modelled coordinator gate constrains the output directory to
the designated output root: every request whose directory does not lie
under the root (neither the root itself nor a descendant of it) is
rejected with no file written, a request under the root is delegated
unchanged to the writing tool, and every descendant directory of the root
is indeed admitted, so the gate is neither too wide nor vacuous. -/
theorem coordinateGenerateReport_rootGate (filename path : String)
    (contents : List Row) (writeOk : Bool) :
    (isUnderRoot outputRoot path = false →
      coordinateGenerateReport filename path contents writeOk
        = { isError := true, fullPath := "", rowCount := 0, filesWritten := [] }) ∧
    (isUnderRoot outputRoot path = true →
      coordinateGenerateReport filename path contents writeOk
        = createFromJsonToFSHandler filename path contents writeOk) ∧
    isUnderRoot outputRoot (outputRoot ++ "/" ++ path) = true := by
  refine ⟨?_, ?_, ?_⟩
  · intro hp
    rw [coordinateGenerateReport, if_neg (by simp [hp])]
  · intro hp
    rw [coordinateGenerateReport, if_pos hp]
  · have hd : (outputRoot ++ "/" ++ path).data = (outputRoot ++ "/").data ++ path.data := by
      rw [String.data_append]
    rw [isUnderRoot, hd, isPrefixOf_self_append]
    simp

/-- Witness for the C7 theorem: the sibling directory outliers and the
foreign directory /etc are both rejected with no file written, while the
root itself and a descendant of the root are delegated to the tool, the
descendant case also discharged through the admission conjunct. -/
theorem coordinateGenerateReport_rootGate_witness :
    coordinateGenerateReport "x.csv" "outliers" [] true
      = { isError := true, fullPath := "", rowCount := 0, filesWritten := [] } ∧
    coordinateGenerateReport "x.csv" "/etc" [] true
      = { isError := true, fullPath := "", rowCount := 0, filesWritten := [] } ∧
    coordinateGenerateReport "x.csv" "out/reports" [] true
      = createFromJsonToFSHandler "x.csv" "out/reports" [] true ∧
    coordinateGenerateReport "x.csv" "out" [] true
      = createFromJsonToFSHandler "x.csv" "out" [] true ∧
    isUnderRoot outputRoot (outputRoot ++ "/" ++ "reports") = true := by
  refine ⟨?_, ?_, ?_, ?_, ?_⟩
  · exact (coordinateGenerateReport_rootGate "x.csv" "outliers" [] true).1 (by decide)
  · exact (coordinateGenerateReport_rootGate "x.csv" "/etc" [] true).1 (by decide)
  · exact (coordinateGenerateReport_rootGate "x.csv" "out/reports" [] true).2.1 (by decide)
  · exact (coordinateGenerateReport_rootGate "x.csv" "out" [] true).2.1 (by decide)
  · exact (coordinateGenerateReport_rootGate "x.csv" "reports" [] true).2.2

theorem rowMatches_iff (t : TableInfo) (r : CatalogRow) :
    rowMatches t r = true ↔ keyT t = keyR r := by
  simp [rowMatches, keyT, keyR, Prod.ext_iff, Bool.and_eq_true]

theorem insertRow_keys (tables : List TableInfo) (r : CatalogRow) :
    (insertRow tables r).map keyT =
      if keyR r ∈ tables.map keyT then tables.map keyT
      else tables.map keyT ++ [keyR r] := by
  induction tables with
  | nil => simp [insertRow, keyT, keyR]
  | cons t ts ih =>
      by_cases hm : rowMatches t r = true
      · have hk : keyT t = keyR r := (rowMatches_iff t r).mp hm
        rw [insertRow, if_pos hm, List.map_cons, List.map_cons,
          if_pos (by simp [← hk])]
        rfl
      · have hk : keyT t ≠ keyR r := fun h => hm ((rowMatches_iff t r).mpr h)
        rw [insertRow, if_neg hm, List.map_cons, ih, List.map_cons]
        by_cases hmem : keyR r ∈ ts.map keyT
        · rw [if_pos hmem, if_pos (by simp [hmem])]
        · have hni : keyR r ∉ keyT t :: List.map keyT ts := by
            intro hc
            rcases List.mem_cons.mp hc with he | h2
            · exact hk he.symm
            · exact hmem h2
          rw [if_neg hmem, if_neg hni]
          rfl

theorem insertRow_notMem (tables : List TableInfo) (r : CatalogRow)
    (h : keyR r ∉ tables.map keyT) :
    insertRow tables r = tables ++ [⟨r.table_schema, r.table_name, [colOfRow r]⟩] := by
  induction tables with
  | nil => rfl
  | cons t ts ih =>
      have hk : keyT t ≠ keyR r := by
        intro e
        exact h (by simp [← e])
      have hm : ¬ rowMatches t r = true := fun hm => hk ((rowMatches_iff t r).mp hm)
      rw [insertRow, if_neg hm, ih (fun hmem => h (by simp [hmem]))]
      rfl

/-- Specification-side extension of an existing table entry by the columns
that a suffix of the catalog rows contributes to it. -/
def extendT (rows : List CatalogRow) (t : TableInfo) : TableInfo :=
  { t with columns := t.columns ++ (rows.filter (fun r => keyR r = keyT t)).map colOfRow }

theorem extendT_nil (t : TableInfo) : extendT [] t = t := by
  simp [extendT]

theorem extendT_cons_ne (r : CatalogRow) (rs : List CatalogRow) (t : TableInfo)
    (h : keyT t ≠ keyR r) :
    extendT (r :: rs) t = extendT rs t := by
  have h2 : ¬ keyR r = keyT t := fun e => h e.symm
  simp [extendT, List.filter_cons, h2]

theorem mkTable_cons_ne (k : String × String) (r : CatalogRow) (rs : List CatalogRow)
    (h : ¬ keyR r = k) :
    mkTable k (r :: rs) = mkTable k rs := by
  simp [mkTable, List.filter_cons, h]

theorem firstSeenFrom_notMem_seen (seen ks : List (String × String))
    (k : String × String) (h : k ∈ firstSeenFrom seen ks) : k ∉ seen := by
  induction ks generalizing seen with
  | nil => simp [firstSeenFrom] at h
  | cons a as ih =>
      rw [firstSeenFrom] at h
      by_cases ha : a ∈ seen
      · rw [if_pos ha] at h
        exact ih seen h
      · rw [if_neg ha] at h
        rcases List.mem_cons.mp h with he | ht
        · subst he
          exact ha
        · intro hs
          exact ih (seen ++ [a]) ht (by simp [hs])

theorem firstSeenFrom_nodup (seen ks : List (String × String)) :
    (firstSeenFrom seen ks).Nodup := by
  induction ks generalizing seen with
  | nil => simp [firstSeenFrom]
  | cons a as ih =>
      rw [firstSeenFrom]
      by_cases ha : a ∈ seen
      · rw [if_pos ha]
        exact ih seen
      · rw [if_neg ha]
        refine List.nodup_cons.mpr ⟨?_, ih (seen ++ [a])⟩
        intro hmem
        exact firstSeenFrom_notMem_seen _ _ _ hmem (by simp)

theorem firstSeenFrom_mem_iff (seen ks : List (String × String)) (k : String × String) :
    k ∈ firstSeenFrom seen ks ↔ k ∈ ks ∧ k ∉ seen := by
  induction ks generalizing seen with
  | nil => simp [firstSeenFrom]
  | cons a as ih =>
      rw [firstSeenFrom]
      by_cases ha : a ∈ seen
      · rw [if_pos ha, ih seen]
        by_cases hk : k = a
        · subst hk
          simp [ha]
        · simp [hk]
      · rw [if_neg ha, List.mem_cons, ih (seen ++ [a])]
        by_cases hk : k = a
        · subst hk
          simp [ha]
        · simp [hk, List.mem_append]

theorem insertRow_map_extendT (acc : List TableInfo) (r : CatalogRow)
    (rs : List CatalogRow) (hnd : (acc.map keyT).Nodup)
    (hmem : keyR r ∈ acc.map keyT) :
    (insertRow acc r).map (extendT rs) = acc.map (extendT (r :: rs)) := by
  induction acc with
  | nil => simp at hmem
  | cons t ts ih =>
      rw [List.map_cons] at hnd hmem
      by_cases hm : rowMatches t r = true
      · have hk : keyT t = keyR r := (rowMatches_iff t r).mp hm
        rw [insertRow, if_pos hm, List.map_cons, List.map_cons]
        congr 1
        · show extendT rs { t with columns := t.columns ++ [colOfRow r] }
            = extendT (r :: rs) t
          have hcond : keyR r = keyT t := hk.symm
          simp [extendT, List.filter_cons, hcond, keyT]
        · apply List.map_congr_left
          intro u hu
          have hut : keyT u ≠ keyR r := by
            intro he
            have ht : keyT t ∉ ts.map keyT := (List.nodup_cons.mp hnd).1
            exact ht (by
              rw [hk, ← he]
              exact List.mem_map_of_mem keyT hu)
          exact (extendT_cons_ne r rs u hut).symm
      · have hk : keyT t ≠ keyR r := fun h => hm ((rowMatches_iff t r).mpr h)
        have hmem2 : keyR r ∈ ts.map keyT := by
          rcases List.mem_cons.mp hmem with he | h2
          · exact absurd he.symm hk
          · exact h2
        rw [insertRow, if_neg hm, List.map_cons, List.map_cons,
          ih (List.nodup_cons.mp hnd).2 hmem2]
        congr 1
        exact (extendT_cons_ne r rs t hk).symm

theorem foldl_insertRow_spec (rows : List CatalogRow) (acc : List TableInfo)
    (hnd : (acc.map keyT).Nodup) :
    rows.foldl insertRow acc =
      acc.map (extendT rows) ++
        (firstSeenFrom (acc.map keyT) (rows.map keyR)).map (fun k => mkTable k rows) := by
  induction rows generalizing acc with
  | nil =>
      have hm : ∀ (l : List TableInfo), List.map (extendT []) l = l := by
        intro l
        induction l with
        | nil => rfl
        | cons a as iha => rw [List.map_cons, extendT_nil, iha]
      simp [firstSeenFrom, hm]
  | cons r rs ih =>
      rw [List.foldl_cons, List.map_cons, firstSeenFrom]
      by_cases hmem : keyR r ∈ acc.map keyT
      · have hkeys : (insertRow acc r).map keyT = acc.map keyT := by
          rw [insertRow_keys, if_pos hmem]
        rw [ih (insertRow acc r) (by rw [hkeys]; exact hnd), hkeys, if_pos hmem]
        congr 1
        · exact insertRow_map_extendT acc r rs hnd hmem
        · apply List.map_congr_left
          intro k hkmem
          have hne : ¬ keyR r = k := by
            intro he
            exact firstSeenFrom_notMem_seen _ _ _ hkmem (he ▸ hmem)
          exact (mkTable_cons_ne k r rs hne).symm
      · have hkeys : (insertRow acc r).map keyT = acc.map keyT ++ [keyR r] := by
          rw [insertRow_keys, if_neg hmem]
        have hnd2 : ((insertRow acc r).map keyT).Nodup := by
          rw [hkeys]
          refine List.nodup_append.mpr ⟨hnd, List.nodup_singleton _, ?_⟩
          intro k hk1 hk2
          rw [List.mem_singleton] at hk2
          exact hmem (hk2 ▸ hk1)
        rw [ih (insertRow acc r) hnd2, hkeys, if_neg hmem,
          insertRow_notMem acc r hmem, List.map_append, List.map_cons]
        rw [List.append_assoc]
        congr 1
        · apply List.map_congr_left
          intro u hu
          have hut : keyT u ≠ keyR r := by
            intro he
            exact hmem (he ▸ List.mem_map_of_mem keyT hu)
          exact (extendT_cons_ne r rs u hut).symm
        · rw [List.map_cons]
          show extendT rs ⟨r.table_schema, r.table_name, [colOfRow r]⟩ ::
              (firstSeenFrom (acc.map keyT ++ [keyR r]) (rs.map keyR)).map
                (fun k => mkTable k rs)
            = mkTable (keyR r) (r :: rs) ::
              (firstSeenFrom (acc.map keyT ++ [keyR r]) (rs.map keyR)).map
                (fun k => mkTable k (r :: rs))
          congr 1
          · simp [extendT, mkTable, keyT, keyR, List.filter_cons]
          · apply List.map_congr_left
            intro k hkmem
            have hknr : ¬ keyR r = k := by
              intro he
              exact firstSeenFrom_notMem_seen _ _ _ hkmem (by simp [← he])
            exact (mkTable_cons_ne k r rs hknr).symm

theorem groupTables_eq_groupSpec (rows : List CatalogRow) :
    groupTables rows = groupSpec rows := by
  have h := foldl_insertRow_spec rows [] (by simp)
  simpa [groupTables, groupSpec] using h

theorem keyT_mkTable (k : String × String) (rows : List CatalogRow) :
    keyT (mkTable k rows) = k := by
  simp [keyT, mkTable]

theorem groupSpec_map_keyT (rows : List CatalogRow) :
    (groupSpec rows).map keyT = firstSeenFrom [] (rows.map keyR) := by
  rw [groupSpec, List.map_map]
  have hm : ∀ (l : List (String × String)),
      List.map (keyT ∘ fun k => mkTable k rows) l = l := by
    intro l
    induction l with
    | nil => rfl
    | cons a as iha =>
        rw [List.map_cons, iha]
        simp [keyT_mkTable]
  exact hm _

/-- C8: on a successful describe_tables call the handler reports no error
and its tables are exactly the specification-side grouping: one entry per
distinct (schema, table) pair of the catalog rows (the key list is the
first-seen deduplication of the row keys, duplicate-free, and covers a key
exactly when some catalog row carries it), each entry holding the columns
of exactly its rows in the order the catalog query returned them. -/
theorem describeTables_grouping (rows : List CatalogRow) :
    (describeTablesHandler (QueryOutcome.ok (some rows))).isError = false ∧
    (describeTablesHandler (QueryOutcome.ok (some rows))).tables = groupSpec rows ∧
    ((describeTablesHandler (QueryOutcome.ok (some rows))).tables.map keyT
      = firstSeenFrom [] (rows.map keyR)) ∧
    ((describeTablesHandler (QueryOutcome.ok (some rows))).tables.map keyT).Nodup ∧
    (∀ k, k ∈ (describeTablesHandler (QueryOutcome.ok (some rows))).tables.map keyT
      ↔ k ∈ rows.map keyR) := by
  have htab : (describeTablesHandler (QueryOutcome.ok (some rows))).tables
      = groupTables rows := rfl
  refine ⟨rfl, ?_, ?_, ?_, ?_⟩
  · rw [htab, groupTables_eq_groupSpec]
  · rw [htab, groupTables_eq_groupSpec, groupSpec_map_keyT]
  · rw [htab, groupTables_eq_groupSpec, groupSpec_map_keyT]
    exact firstSeenFrom_nodup [] (rows.map keyR)
  · intro k
    rw [htab, groupTables_eq_groupSpec, groupSpec_map_keyT,
      firstSeenFrom_mem_iff]
    simp

/-- C9 amended: every table entry returned by a successful describe_tables
call has a non-empty columns list and the (schema, name) pairs are
pairwise distinct; describe_table, however, returns a success result whose
columns list is exactly the mapped catalog rows, and that list is empty
whenever the catalog returns no row for the requested pair. -/
theorem introspection_invariants (rows crows : List CatalogRow) (table schema : String) :
    (∀ t, t ∈ (describeTablesHandler (QueryOutcome.ok (some rows))).tables →
      t.columns ≠ []) ∧
    ((describeTablesHandler (QueryOutcome.ok (some rows))).tables.map keyT).Nodup ∧
    (describeTableHandler table schema (QueryOutcome.ok (some crows))).isError
      = false ∧
    (describeTableHandler table schema (QueryOutcome.ok (some crows))).columns
      = crows.map colOfRow := by
  have htab : (describeTablesHandler (QueryOutcome.ok (some rows))).tables
      = groupSpec rows := by
    show groupTables rows = groupSpec rows
    exact groupTables_eq_groupSpec rows
  refine ⟨?_, ?_, rfl, rfl⟩
  case refine_2 =>
    rw [htab, groupSpec_map_keyT]
    exact firstSeenFrom_nodup [] (rows.map keyR)
  intro t ht
  rw [htab, groupSpec] at ht
  rcases List.mem_map.mp ht with ⟨k, hk, rfl⟩
  have hkr : k ∈ rows.map keyR :=
    ((firstSeenFrom_mem_iff [] (rows.map keyR) k).mp hk).1
  rcases List.mem_map.mp hkr with ⟨r, hr, hrk⟩
  intro hnil
  have hmem : colOfRow r ∈ (rows.filter (fun x => keyR x = k)).map colOfRow :=
    List.mem_map_of_mem colOfRow (List.mem_filter.mpr ⟨hr, by simp [hrk]⟩)
  have hcols : (mkTable k rows).columns
      = (rows.filter (fun x => keyR x = k)).map colOfRow := rfl
  rw [hcols] at hnil
  rw [hnil] at hmem
  exact List.not_mem_nil _ hmem

/-- Sample catalog row used by concrete witnesses. -/
def sampleCatalogRow : CatalogRow :=
  { table_schema := "public"
    table_name := "t1"
    column_name := "id"
    data_type := "integer"
    identity := true
    required := true
    char_max_length := none
    num_precision := some 32
    num_precision_radix := some 2 }

/-- Witness for the amended C9 theorem at a one-row catalog. -/
theorem introspection_invariants_witness :
    (⟨"public", "t1", [colOfRow sampleCatalogRow]⟩ : TableInfo).columns ≠ [] ∧
    ((describeTablesHandler (QueryOutcome.ok
        (some [sampleCatalogRow]))).tables.map keyT).Nodup ∧
    (describeTableHandler "t1" "public" (QueryOutcome.ok
        (some [sampleCatalogRow]))).isError = false ∧
    (describeTableHandler "t1" "public" (QueryOutcome.ok
        (some [sampleCatalogRow]))).columns = [sampleCatalogRow].map colOfRow := by
  have h := introspection_invariants [sampleCatalogRow] [sampleCatalogRow] "t1" "public"
  exact ⟨h.1 ⟨"public", "t1", [colOfRow sampleCatalogRow]⟩ (by decide),
    h.2.1, h.2.2.1, h.2.2.2⟩

/-- C9 counterexample: describe_table on a pair absent from the catalog
returns a success (not an error) whose columns list is empty, so a table
descriptor returned by introspection can have an empty columns list. -/
theorem describeTable_emptyColumns_cex :
    (describeTableHandler "missing" "public" (QueryOutcome.ok (some []))).isError
      = false ∧
    (describeTableHandler "missing" "public" (QueryOutcome.ok (some []))).columns
      = [] := ⟨rfl, rfl⟩
